import Mathlib

/-!
Verification development for the StudyPath AI study-plan generator
(a single-file Streamlit application, `take1.py`).

The application is glue around four external services: a hosted language
model (LangChain `chain.invoke`), the Python builtin `eval` used to parse
the model response, a YouTube search endpoint (`YoutubeSearch(...).to_dict`),
and a MongoDB collection.  The shallow embedding below keeps the
repository's own logic concrete and executable, and passes each external
service in as an explicit function argument (an oracle): the model call is
`invoke : GenInput → Except String String`, the Python `eval` of the
stripped response text is `evalFn : String → Except String StudyPlan`, the
video search is `search : String → Except String (List RawVideo)`, and the
MongoDB collection is a `List PlanDoc` threaded through as state.
`Except String` plays the role of a raised Python exception carrying its
message.
-/

/-- A raw search result as returned by `YoutubeSearch(query).to_dict()`:
the fields the code reads are `id`, `title` and `thumbnails` (a list). -/
structure RawVideo where
  id : String
  title : String
  thumbnails : List String
deriving Repr, DecidableEq

/-- The video record built by `find_youtube_video` (spec's VideoRef):
`{"id": ..., "title": ..., "url": ..., "thumbnail": ...}`. -/
structure VideoRef where
  id : String
  title : String
  url : String
  thumbnail : String
deriving Repr, DecidableEq

/-- A topic dict of the generated plan: `{"name", "hours", "description"}`,
plus the `"video"` key added by the enrichment loop.  `video = none` models
a dict with no `"video"` key at all; `video = some v?` models the key being
present with value `v?` (where `v? = none` is Python `None`, the value
stored when the lookup found no results). -/
structure Topic where
  name : String
  hours : Int
  description : String
  video : Option (Option VideoRef) := none
deriving Repr, DecidableEq

/-- A week dict of the generated plan. -/
structure Week where
  week_number : Int
  focus_area : String
  objectives : List String
  topics : List Topic
  recommended_hours : Int
deriving Repr, DecidableEq

/-- The parsed model output: a dict `{"weeks": [...]}`. -/
structure StudyPlan where
  weeks : List Week
deriving Repr, DecidableEq

/-- The payload passed to `chain.invoke` in `generate_study_plan`:
the four user inputs plus the hard-coded `"weeks": 4`. -/
structure GenInput where
  subject : String
  current_level : String
  target_level : String
  hours_per_week : Nat
  weeks : Nat
deriving Repr, DecidableEq

/-- The scanning loop of Python `str.replace`: at each position, if `old`
matches there, emit `new` and skip past the occurrence, otherwise keep one
character and move on (non-overlapping occurrences, left to right).  The fuel
is the length of the scanned list, which bounds the number of steps; it is
structural so that the kernel can evaluate the function. -/
def replaceFuel (old new : List Char) : Nat → List Char → List Char
  | _, [] => []
  | 0, s => s
  | fuel + 1, c :: rest =>
    if old.isPrefixOf (c :: rest) then
      new ++ replaceFuel old new fuel (List.drop (old.length - 1) rest)
    else
      c :: replaceFuel old new fuel rest

/-- Model of the Python builtin `str.replace(old, new)` for non-empty `old`:
every non-overlapping occurrence of `old` is replaced by `new`. -/
def pyReplace (s old new : String) : String :=
  ⟨replaceFuel old.data new.data s.data.length s.data⟩

/-- `response.content.replace('```json', '').replace('```', '')`:
the fence-marker stripping applied to the raw model response before `eval`. -/
def strip_fences (s : String) : String :=
  pyReplace (pyReplace s "```json" "") "```" ""

/-- `generate_study_plan(subject, current_level, target_level, hours_per_week)`.
Builds the invoke payload (the four inputs plus `weeks = 4`), calls the model,
strips code fences from the response and parses it with `eval` — returning the
parsed value with no validation whatsoever.  The first component of the result
is the log of model invocations (the payload of each `chain.invoke` call, in
order); the second is the returned value or the raised exception. -/
def generate_study_plan (invoke : GenInput → Except String String)
    (evalFn : String → Except String StudyPlan)
    (subject current_level target_level : String) (hours_per_week : Nat) :
    List GenInput × Except String StudyPlan :=
  let input : GenInput := ⟨subject, current_level, target_level, hours_per_week, 4⟩
  ([input],
    match invoke input with
    | Except.error e => Except.error e
    | Except.ok resp => evalFn (strip_fences resp))

/-- `find_youtube_video(query)`: one search call (`max_results=1`), then
`results[0]` is mapped into the four-field video dict, with the url built as
`f"https://youtube.com/watch?v=\x7bvideo['id']\x7d"`; returns `None` when the
search yields no results.  `video["thumbnails"][0]` raises IndexError when the
first result's thumbnail list is empty, exactly as the Python subscript does. -/
def find_youtube_video (search : String → Except String (List RawVideo))
    (query : String) : Except String (Option VideoRef) :=
  match search query with
  | Except.error e => Except.error e
  | Except.ok [] => Except.ok none
  | Except.ok (video :: _) =>
    match video.thumbnails with
    | [] => Except.error "IndexError"
    | thumb :: _ =>
      Except.ok (some ⟨video.id, video.title,
        "https://youtube.com/watch?v=" ++ video.id, thumb⟩)

/-- The inner enrichment loop of `main`'s try block:
`for topic in week['topics']: video = find_youtube_video(f"\x7btopic['name']\x7d \x7bsubject\x7d"); topic['video'] = video`.
First component: the queries issued to the video search, in order (a raising
call is logged too, since the call was made); second: the enriched topic list,
or the exception that aborted the loop. -/
def enrichTopics (search : String → Except String (List RawVideo))
    (subject : String) : List Topic → List String × Except String (List Topic)
  | [] => ([], Except.ok [])
  | t :: ts =>
    match find_youtube_video search (t.name ++ " " ++ subject) with
    | Except.error e => ([t.name ++ " " ++ subject], Except.error e)
    | Except.ok v =>
      match enrichTopics search subject ts with
      | (qs, Except.error e) => ((t.name ++ " " ++ subject) :: qs, Except.error e)
      | (qs, Except.ok ts') =>
        ((t.name ++ " " ++ subject) :: qs, Except.ok ({ t with video := some v } :: ts'))

/-- The outer enrichment loop of `main`'s try block: `for week in plan['weeks']`,
running `enrichTopics` on each week's topics in order, aborting on the first
exception. -/
def enrichWeeks (search : String → Except String (List RawVideo))
    (subject : String) : List Week → List String × Except String (List Week)
  | [] => ([], Except.ok [])
  | w :: ws =>
    match enrichTopics search subject w.topics with
    | (qs, Except.error e) => (qs, Except.error e)
    | (qs, Except.ok ts') =>
      match enrichWeeks search subject ws with
      | (qs2, Except.error e) => (qs ++ qs2, Except.error e)
      | (qs2, Except.ok ws') => (qs ++ qs2, Except.ok ({ w with topics := ts' } :: ws'))

/-- The whole enrichment pass over `plan['weeks']`. -/
def enrich_plan (search : String → Except String (List RawVideo))
    (subject : String) (plan : StudyPlan) : List String × Except String StudyPlan :=
  match enrichWeeks search subject plan.weeks with
  | (qs, Except.error e) => (qs, Except.error e)
  | (qs, Except.ok ws) => (qs, Except.ok ⟨ws⟩)

/-- A document of the MongoDB `plans` collection, as written by `save_plan` in
`main`: the plan's `weeks` spread in via `\x7b**plan, ...\x7d`, plus `subject`,
`created_at` (a timestamp, modelled as a `Nat`), the server-assigned `_id`
(modelled as a `Nat`), and the `progress` sub-document (a dict from topic name
to boolean, modelled as an association list in insertion order). -/
structure PlanDoc where
  _id : Nat
  weeks : List Week
  subject : String
  created_at : Nat
  progress : List (String × Bool)
deriving Repr, DecidableEq

/-- Dict lookup in the `progress` sub-document. -/
def getKey (m : List (String × Bool)) (k : String) : Option Bool :=
  match m with
  | [] => none
  | (k', v') :: rest => if k' = k then some v' else getKey rest k

/-- The effect of MongoDB `$set` on one key of the `progress` sub-document:
overwrite the key when present, append it when absent. -/
def setKey (m : List (String × Bool)) (k : String) (v : Bool) : List (String × Bool) :=
  match m with
  | [] => [(k, v)]
  | (k', v') :: rest => if k' = k then (k, v) :: rest else (k', v') :: setKey rest k v

/-- `MongoDBClient.save_plan(plan)`: `insert_one` appends the document and
returns its `inserted_id`.  The `_id` is chosen by the store; callers pass it
in as the document's `_id` field. -/
def save_plan (store : List PlanDoc) (doc : PlanDoc) : List PlanDoc × Nat :=
  (store ++ [doc], doc._id)

/-- `MongoDBClient.update_progress(plan_id, topic, completed)`:
`update_one(\x7b"_id": plan_id\x7d, \x7b"$set": \x7bf"progress.\x7btopic\x7d": completed\x7d\x7d)`.
`update_one` modifies at most the first document matching the filter and is a
silent no-op (raising nothing) when no document matches. -/
def update_progress (store : List PlanDoc) (plan_id : Nat) (topic : String)
    (completed : Bool) : List PlanDoc :=
  match store with
  | [] => []
  | d :: rest =>
    if d._id = plan_id then
      { d with progress := setKey d.progress topic completed } :: rest
    else
      d :: update_progress rest plan_id topic completed

/-- `MongoDBClient.get_plan(plan_id)`: `find_one(\x7b"_id": plan_id\x7d)`
returns the first document whose `_id` matches, or `None`. -/
def get_plan (store : List PlanDoc) (plan_id : Nat) : Option PlanDoc :=
  match store with
  | [] => none
  | d :: rest => if d._id = plan_id then some d else get_plan rest plan_id

/-- The value stored under `progress.<topic>` of the document matching
`plan_id`, read back through `get_plan`. -/
def get_progress_value (store : List PlanDoc) (plan_id : Nat) (topic : String) :
    Option Bool :=
  match get_plan store plan_id with
  | none => none
  | some d => getKey d.progress topic

/-- The value `st.session_state.plan` holds after a successful generation:
`\x7b**plan, "_id": plan_id\x7d` — the enriched weeks plus the inserted id. -/
structure SessionPlan where
  _id : Nat
  weeks : List Week
deriving Repr, DecidableEq

/-- The two pieces of Streamlit session state the app keeps:
`st.session_state.plan` (absent until a generation succeeds) and
`st.session_state.progress` (the topic-name-to-boolean dict). -/
structure Session where
  plan : Option SessionPlan
  progress : List (String × Bool)
deriving Repr, DecidableEq

/-- The observable outcome of one click of the Generate button: the store
after the handler, the session state after the handler, and the error banner
(`st.error(f"Error generating plan: \x7bstr(e)\x7d")`) when the catch-all
`except` branch ran, `none` when `st.success` ran. -/
structure HandlerResult where
  store : List PlanDoc
  session : Session
  errorMsg : Option String
deriving Repr, DecidableEq

/-- The try/except block under `if st.button("Generate Smart Plan")` in
`main` (lines 171-192): generate the plan, enrich every topic with a video,
insert the document `\x7b**plan, "subject": subject, "created_at": now,
"progress": \x7b\x7d\x7d`, and set `st.session_state.plan`; any exception
from any of these steps lands in the single `except` branch, which only
shows the error message — it touches neither the store nor the session. -/
def generate_button (invoke : GenInput → Except String String)
    (evalFn : String → Except String StudyPlan)
    (search : String → Except String (List RawVideo))
    (store : List PlanDoc) (session : Session)
    (subject current_level target_level : String) (hours_per_week : Nat)
    (now : Nat) (nextId : Nat) : HandlerResult :=
  match (generate_study_plan invoke evalFn subject current_level target_level hours_per_week).2 with
  | Except.error e => ⟨store, session, some ("Error generating plan: " ++ e)⟩
  | Except.ok plan =>
    match (enrich_plan search subject plan).2 with
    | Except.error e => ⟨store, session, some ("Error generating plan: " ++ e)⟩
    | Except.ok enriched =>
      match save_plan store ⟨nextId, enriched.weeks, subject, now, []⟩ with
      | (store', plan_id) =>
        ⟨store', ⟨some ⟨plan_id, enriched.weeks⟩, session.progress⟩, none⟩

/-- `total_topics = sum(len(w['topics']) for w in plan['weeks'])`. -/
def total_topics (weeks : List Week) : Nat :=
  (weeks.map (fun w => w.topics.length)).sum

/-- `completed = sum(st.session_state.progress.get(t['name'], False) for w in weeks for t in w['topics'])`
— Python booleans sum as integers, a missing key counts as `False`. -/
def completed_count (progress : List (String × Bool)) (weeks : List Week) : Nat :=
  ((weeks.map (fun w => w.topics)).flatten.map
    (fun t => if (getKey progress t.name).getD false then 1 else 0)).sum

/-- `progress = completed / total_topics if total_topics > 0 else 0`
(exact rational arithmetic standing in for Python float division). -/
def progress_fraction (progress : List (String × Bool)) (weeks : List Week) : ℚ :=
  if total_topics weeks > 0 then
    (completed_count progress weeks : ℚ) / (total_topics weeks : ℚ)
  else 0

/-- All topics of a plan's weeks, in render order. -/
def allTopics (weeks : List Week) : List Topic :=
  (weeks.map (fun w => w.topics)).flatten

/-! ### Concrete oracles for witnesses and counterexamples -/

/-- A model run whose response is the fenced text `(three backticks)json
\x7b"weeks": []\x7d (three backticks)` — syntactically valid JSON with an
empty week list. -/
def invoke_fenced : GenInput → Except String String :=
  fun _ => Except.ok "```json\n\x7b\"weeks\": []\x7d\n```"

/-- The Python builtin `eval` evaluated on the stripped response text of
`invoke_fenced`: Python `eval` of the dict literal `\x7b"weeks": []\x7d`
(surrounded by newlines) yields the dict with an empty week list; any other
text is treated as a SyntaxError here, which is all the behaviour these
runs consult. -/
def eval_model : String → Except String StudyPlan :=
  fun s =>
    if s = "\n\x7b\"weeks\": []\x7d\n" then Except.ok ⟨[]⟩
    else Except.error "SyntaxError"

/-- A model call that raises. -/
def invoke_fail : GenInput → Except String String :=
  fun _ => Except.error "model unavailable"

/-- A model call returning a fixed response text. -/
def invoke_ok : GenInput → Except String String :=
  fun _ => Except.ok "resp"

/-- A one-week, one-topic plan used for concrete runs. -/
def plan0 : StudyPlan :=
  ⟨[⟨1, "Intro", ["O1"], [⟨"Regression", 2, "basics", none⟩], 10⟩]⟩

/-- Python `eval` pinned to return `plan0` (the concrete parse used in the
witness runs, independent of the response text). -/
def eval_plan0 : String → Except String StudyPlan :=
  fun _ => Except.ok plan0

/-- A video search that succeeds with zero results. -/
def search_empty : String → Except String (List RawVideo) :=
  fun _ => Except.ok []

/-- A video search that succeeds with one result. -/
def search_one : String → Except String (List RawVideo) :=
  fun _ => Except.ok [⟨"abc123", "Tutorial", ["thumb.jpg"]⟩]

/-- A video search that raises. -/
def search_fail : String → Except String (List RawVideo) :=
  fun _ => Except.error "HTTP 500"

/-! ### Helper lemmas -/

/-- Reading back the key just written by `$set`. -/
theorem getKey_setKey_self (m : List (String × Bool)) (k : String) (v : Bool) :
    getKey (setKey m k v) k = some v := by
  induction m with
  | nil => simp [setKey, getKey]
  | cons p rest ih =>
    obtain ⟨k', v'⟩ := p
    by_cases h : k' = k
    · simp [setKey, getKey, h]
    · simp [setKey, getKey, h, ih]

/-- `$set` of one key leaves every other key of the sub-document unchanged. -/
theorem getKey_setKey_ne (m : List (String × Bool)) (k : String) (v : Bool)
    (k' : String) (h : k' ≠ k) : getKey (setKey m k v) k' = getKey m k' := by
  induction m with
  | nil => simp [setKey, getKey, Ne.symm h]
  | cons p rest ih =>
    obtain ⟨k'', v''⟩ := p
    by_cases hk : k'' = k
    · subst hk
      simp [setKey, getKey, Ne.symm h]
    · simp [setKey, getKey, hk, ih]

/-- A sum of 0/1 indicators is the length of the corresponding filter. -/
theorem sum_ite_filter (l : List Topic) (f : Topic → Bool) :
    (l.map (fun t => if f t then 1 else 0)).sum = (l.filter f).length := by
  induction l with
  | nil => simp
  | cons t ts ih => by_cases h : f t <;> simp [h, ih, List.filter_cons, Nat.add_comm]

/-- Python truthiness of `progress.get(name, False)`: the default-`False`
read is `true` exactly when the key maps to `true`. -/
theorem getD_false_iff (o : Option Bool) : o.getD false = true ↔ o = some true := by
  cases o with
  | none => simp
  | some b => cases b <;> simp

/-- The code's completed counter equals the number of topics whose
progress entry reads back `true`. -/
theorem completed_count_eq (progress : List (String × Bool)) (weeks : List Week) :
    completed_count progress weeks =
      ((allTopics weeks).filter (fun t => (getKey progress t.name).getD false)).length :=
  sum_ite_filter (allTopics weeks) _

/-- `update_one` preserves existence of a matching document. -/
theorem exists_id_update (store : List PlanDoc) (p : Nat) (t : String) (b : Bool)
    (h : ∃ d ∈ store, d._id = p) :
    ∃ d ∈ update_progress store p t b, d._id = p := by
  induction store with
  | nil => simp at h
  | cons d rest ih =>
    by_cases hd : d._id = p
    · exact ⟨{ d with progress := setKey d.progress t b }, by simp [update_progress, hd], hd⟩
    · obtain ⟨d', hmem, hid⟩ := h
      rcases List.mem_cons.mp hmem with rfl | hrest
      · exact absurd hid hd
      · obtain ⟨d'', hmem'', hid''⟩ := ih ⟨d', hrest, hid⟩
        exact ⟨d'', by simp [update_progress, hd, hmem''], hid''⟩

/-- When the inner enrichment loop finishes without an exception, it issued
exactly one search query per topic, in order: the topic name, a space, the
subject. -/
theorem enrichTopics_ok_queries (search : String → Except String (List RawVideo))
    (subject : String) :
    ∀ (ts : List Topic) (qs : List String) (r : List Topic),
      enrichTopics search subject ts = (qs, Except.ok r) →
      qs = ts.map (fun t => t.name ++ " " ++ subject) := by
  intro ts
  induction ts with
  | nil =>
    intro qs r h
    simp only [enrichTopics, Prod.mk.injEq] at h
    simp [← h.1]
  | cons t ts ih =>
    intro qs r h
    simp only [enrichTopics] at h
    split at h
    · simp at h
    · rename_i v hv
      split at h
      · simp at h
      · rename_i qs2 ts' he
        simp only [Prod.mk.injEq, Except.ok.injEq] at h
        obtain ⟨hq, hr⟩ := h
        simp [← hq, ih qs2 ts' he]

/-- When the outer enrichment loop finishes without an exception, the queries
issued are, week by week and topic by topic in order, one per topic. -/
theorem enrichWeeks_ok_queries (search : String → Except String (List RawVideo))
    (subject : String) :
    ∀ (ws : List Week) (qs : List String) (r : List Week),
      enrichWeeks search subject ws = (qs, Except.ok r) →
      qs = (ws.map (fun w => w.topics.map (fun t => t.name ++ " " ++ subject))).flatten := by
  intro ws
  induction ws with
  | nil =>
    intro qs r h
    simp only [enrichWeeks, Prod.mk.injEq] at h
    simp [← h.1]
  | cons w ws ih =>
    intro qs r h
    simp only [enrichWeeks] at h
    split at h
    · simp at h
    · rename_i qs1 ts' ht
      split at h
      · simp at h
      · rename_i qs2 ws' hw
        simp only [Prod.mk.injEq, Except.ok.injEq] at h
        obtain ⟨hq, hr⟩ := h
        simp [← hq, enrichTopics_ok_queries search subject w.topics qs1 ts' ht,
          ih qs2 ws' hw]

/-- When the inner enrichment loop finishes without an exception, every topic
it returns carries a `"video"` key. -/
theorem enrichTopics_ok_video (search : String → Except String (List RawVideo))
    (subject : String) :
    ∀ (ts : List Topic) (qs : List String) (r : List Topic),
      enrichTopics search subject ts = (qs, Except.ok r) →
      ∀ t' ∈ r, t'.video.isSome = true := by
  intro ts
  induction ts with
  | nil =>
    intro qs r h
    simp only [enrichTopics, Prod.mk.injEq, Except.ok.injEq] at h
    intro t' ht'
    rw [← h.2] at ht'
    simp at ht'
  | cons t ts ih =>
    intro qs r h
    simp only [enrichTopics] at h
    split at h
    · simp at h
    · rename_i v hv
      split at h
      · simp at h
      · rename_i qs2 ts' he
        simp only [Prod.mk.injEq, Except.ok.injEq] at h
        obtain ⟨hq, hr⟩ := h
        intro t' ht'
        rw [← hr] at ht'
        rcases List.mem_cons.mp ht' with rfl | hmem
        · simp
        · exact ih qs2 ts' he t' hmem

/-- When the outer enrichment loop finishes without an exception, every topic
of every returned week carries a `"video"` key. -/
theorem enrichWeeks_ok_video (search : String → Except String (List RawVideo))
    (subject : String) :
    ∀ (ws : List Week) (qs : List String) (r : List Week),
      enrichWeeks search subject ws = (qs, Except.ok r) →
      ∀ w ∈ r, ∀ t ∈ w.topics, t.video.isSome = true := by
  intro ws
  induction ws with
  | nil =>
    intro qs r h
    simp only [enrichWeeks, Prod.mk.injEq, Except.ok.injEq] at h
    intro w hw
    rw [← h.2] at hw
    simp at hw
  | cons w ws ih =>
    intro qs r h
    simp only [enrichWeeks] at h
    split at h
    · simp at h
    · rename_i qs1 ts' ht
      split at h
      · simp at h
      · rename_i qs2 ws' hw
        simp only [Prod.mk.injEq, Except.ok.injEq] at h
        obtain ⟨hq, hr⟩ := h
        intro w' hw' t htp
        rw [← hr] at hw'
        rcases List.mem_cons.mp hw' with rfl | hmem
        · exact enrichTopics_ok_video search subject w.topics qs1 ts' ht t htp
        · exact ih qs2 ws' hw w' hmem t htp

/-- After one `update_progress`, the stored `progress.<topic>` of the matching
document reads back the written boolean. -/
theorem get_progress_value_update (store : List PlanDoc) (p : Nat) (t : String)
    (b : Bool) (h : ∃ d ∈ store, d._id = p) :
    get_progress_value (update_progress store p t b) p t = some b := by
  induction store with
  | nil => simp at h
  | cons d rest ih =>
    by_cases hd : d._id = p
    · simp [update_progress, hd, get_progress_value, get_plan, getKey_setKey_self]
    · obtain ⟨d', hmem, hid⟩ := h
      rcases List.mem_cons.mp hmem with rfl | hrest
      · exact absurd hid hd
      · simpa [update_progress, hd, get_progress_value, get_plan] using ih ⟨d', hrest, hid⟩

/-! ### Claim theorems -/

/-- C1, counterexample: on a model response whose JSON body is
`\x7b"weeks": []\x7d`, `generate_study_plan` returns (does not raise) a value
whose `weeks` sequence is empty — contradicting "generate_study_plan either
returns a StudyPlan whose weeks field is a non-empty ordered sequence, or
raises an error". -/
theorem generate_study_plan_empty_weeks_cex :
    (generate_study_plan invoke_fenced eval_model
        "Machine Learning" "Beginner" "Intermediate" 10).2 = Except.ok ⟨[]⟩
    ∧ (StudyPlan.mk []).weeks = [] :=
  ⟨rfl, rfl⟩

/-- C1, amended: `generate_study_plan` performs no validation of the parsed
model output.  It either raises (when the model call or the `eval` parse
raises), or returns exactly the value `eval` produced from the fence-stripped
response — a value that may be partially structured (e.g., its `weeks` may be
empty or missing). -/
theorem generate_study_plan_no_validation (invoke : GenInput → Except String String)
    (evalFn : String → Except String StudyPlan)
    (subject current_level target_level : String) (hours_per_week : Nat) :
    (∃ e, (generate_study_plan invoke evalFn subject current_level target_level
        hours_per_week).2 = Except.error e)
    ∨ (∃ resp, invoke ⟨subject, current_level, target_level, hours_per_week, 4⟩
          = Except.ok resp
        ∧ (generate_study_plan invoke evalFn subject current_level target_level
            hours_per_week).2 = evalFn (strip_fences resp)) := by
  cases hi : invoke ⟨subject, current_level, target_level, hours_per_week, 4⟩ with
  | error e => exact Or.inl ⟨e, by simp [generate_study_plan, hi]⟩
  | ok resp => exact Or.inr ⟨resp, rfl, by simp [generate_study_plan, hi]⟩

/-- C2: when the generated plan is fine but some per-topic video lookup raises,
the whole Generate-button run takes the error path: the store is exactly the
store from before the click (`save_plan` never ran, the partial enrichment is
discarded) and the session is unchanged. -/
theorem lookup_failure_discards_run (invoke : GenInput → Except String String)
    (evalFn : String → Except String StudyPlan)
    (search : String → Except String (List RawVideo))
    (store : List PlanDoc) (session : Session)
    (subject current_level target_level : String) (hours_per_week : Nat)
    (now nextId : Nat) (plan : StudyPlan) (qs : List String) (e : String)
    (hgen : (generate_study_plan invoke evalFn subject current_level target_level
        hours_per_week).2 = Except.ok plan)
    (henr : enrich_plan search subject plan = (qs, Except.error e)) :
    generate_button invoke evalFn search store session subject current_level
        target_level hours_per_week now nextId
      = ⟨store, session, some ("Error generating plan: " ++ e)⟩ := by
  have h2 : (enrich_plan search subject plan).2 = Except.error e := by rw [henr]
  simp [generate_button, hgen, h2]

/-- C2 witness: a concrete run (one-topic plan, raising search) leaves a
concrete store and session untouched. -/
theorem lookup_failure_discards_run_witness :
    generate_button invoke_ok eval_plan0 search_fail [] ⟨none, []⟩
        "ML" "Beginner" "Intermediate" 10 0 1
      = ⟨[], ⟨none, []⟩, some ("Error generating plan: " ++ "HTTP 500")⟩ :=
  lookup_failure_discards_run invoke_ok eval_plan0 search_fail [] ⟨none, []⟩
    "ML" "Beginner" "Intermediate" 10 0 1 plan0
    ["Regression" ++ " " ++ "ML"] "HTTP 500" rfl rfl

/-- C3: the progress value rendered above the progress bar is the number of
topics whose progress entry reads back `true`, divided by the total topic
count over all weeks; it is 0 when nothing is checked, and 0 (not a
division-by-zero error) when the plan has no topics at all. -/
theorem progress_percentage_spec (progress : List (String × Bool)) (weeks : List Week) :
    (progress_fraction progress weeks
        = if total_topics weeks = 0 then 0
          else (((allTopics weeks).filter
              (fun t => (getKey progress t.name).getD false)).length : ℚ)
            / (total_topics weeks : ℚ))
    ∧ ((∀ t ∈ allTopics weeks, ¬ getKey progress t.name = some true) →
        progress_fraction progress weeks = 0)
    ∧ (total_topics weeks = 0 → progress_fraction progress weeks = 0) := by
  refine ⟨?_, ?_, ?_⟩
  · by_cases h0 : total_topics weeks = 0
    · simp [progress_fraction, h0]
    · have hpos : 0 < total_topics weeks := Nat.pos_of_ne_zero h0
      simp [progress_fraction, h0, hpos, completed_count_eq]
  · intro hnone
    have hzero : completed_count progress weeks = 0 := by
      rw [completed_count_eq, List.length_eq_zero, List.filter_eq_nil_iff]
      intro t ht
      rw [Bool.not_eq_true, ← Bool.not_eq_true, getD_false_iff]
      exact hnone t ht
    by_cases h0 : total_topics weeks = 0
    · simp [progress_fraction, h0]
    · simp [progress_fraction, Nat.pos_of_ne_zero h0, hzero]
  · intro h0
    simp [progress_fraction, h0]

/-- C3 witness: the first conjunct of the specification evaluated on the
concrete one-topic plan with its topic checked. -/
theorem progress_percentage_spec_witness :
    progress_fraction [("Regression", true)] plan0.weeks
      = if total_topics plan0.weeks = 0 then 0
        else (((allTopics plan0.weeks).filter
            (fun t => (getKey [("Regression", true)] t.name).getD false)).length : ℚ)
          / (total_topics plan0.weeks : ℚ) :=
  (progress_percentage_spec [("Regression", true)] plan0.weeks).1

/-- C4: `find_youtube_video` returns `None` exactly when the search yielded no
results, and any returned video record has all four fields populated from the
first search result, its url built from that result's id.  (A search exception
or an empty thumbnail list raises instead of returning a partial record.) -/
theorem find_youtube_video_full_or_absent
    (search : String → Except String (List RawVideo)) (query : String) :
    (find_youtube_video search query = Except.ok none → search query = Except.ok [])
    ∧ (∀ v, find_youtube_video search query = Except.ok (some v) →
        ∃ raw rest ts, search query = Except.ok (raw :: rest)
          ∧ v.id = raw.id ∧ v.title = raw.title
          ∧ v.url = "https://youtube.com/watch?v=" ++ raw.id
          ∧ raw.thumbnails = v.thumbnail :: ts) := by
  constructor
  · intro h
    cases hs : search query with
    | error e => simp [find_youtube_video, hs] at h
    | ok results =>
      cases results with
      | nil => rfl
      | cons raw rest =>
        cases hth : raw.thumbnails with
        | nil => simp [find_youtube_video, hs, hth] at h
        | cons th ths => simp [find_youtube_video, hs, hth] at h
  · intro v h
    cases hs : search query with
    | error e => simp [find_youtube_video, hs] at h
    | ok results =>
      cases results with
      | nil => simp [find_youtube_video, hs] at h
      | cons raw rest =>
        cases hth : raw.thumbnails with
        | nil => simp [find_youtube_video, hs, hth] at h
        | cons th ths =>
          refine ⟨raw, rest, ths, rfl, ?_⟩
          simp only [find_youtube_video, hs, hth, Except.ok.injEq,
            Option.some.injEq] at h
          subst h
          exact ⟨rfl, rfl, rfl, hth⟩

/-- C4 witness: on a search returning one concrete result, the returned video
record is fully populated from it. -/
theorem find_youtube_video_full_or_absent_witness :
    ∃ raw rest ts, search_one "q" = Except.ok (raw :: rest)
      ∧ (VideoRef.mk "abc123" "Tutorial"
          ("https://youtube.com/watch?v=" ++ "abc123") "thumb.jpg").id = raw.id
      ∧ (VideoRef.mk "abc123" "Tutorial"
          ("https://youtube.com/watch?v=" ++ "abc123") "thumb.jpg").title = raw.title
      ∧ (VideoRef.mk "abc123" "Tutorial"
          ("https://youtube.com/watch?v=" ++ "abc123") "thumb.jpg").url
        = "https://youtube.com/watch?v=" ++ raw.id
      ∧ raw.thumbnails
        = (VideoRef.mk "abc123" "Tutorial"
            ("https://youtube.com/watch?v=" ++ "abc123") "thumb.jpg").thumbnail :: ts :=
  (find_youtube_video_full_or_absent search_one "q").2
    (VideoRef.mk "abc123" "Tutorial"
      ("https://youtube.com/watch?v=" ++ "abc123") "thumb.jpg") rfl

/-- C5: on the scenario input (subject "Machine Learning", levels
Beginner/Intermediate, 10 hours), the model is invoked exactly once, with
exactly those four values plus the fixed week count 4; and on a successful
enrichment pass, the video search receives exactly one query per topic of the
generated plan, in order, each query being the topic name, a space, and the
subject. -/
theorem scenario_machine_learning (invoke : GenInput → Except String String)
    (evalFn : String → Except String StudyPlan)
    (search : String → Except String (List RawVideo))
    (plan : StudyPlan) (qs : List String) (p' : StudyPlan)
    (henr : enrich_plan search "Machine Learning" plan = (qs, Except.ok p')) :
    (generate_study_plan invoke evalFn "Machine Learning" "Beginner" "Intermediate" 10).1
      = [⟨"Machine Learning", "Beginner", "Intermediate", 10, 4⟩]
    ∧ qs = (allTopics plan.weeks).map (fun t => t.name ++ " " ++ "Machine Learning") := by
  constructor
  · rfl
  · have h := henr
    simp only [enrich_plan] at h
    split at h
    · simp at h
    · rename_i qs1 ws hw
      simp only [Prod.mk.injEq, Except.ok.injEq] at h
      obtain ⟨hq, hp⟩ := h
      rw [← hq, enrichWeeks_ok_queries search "Machine Learning" plan.weeks qs1 ws hw]
      simp only [allTopics, List.map_flatten, List.map_map, Function.comp_def]

/-- C5 witness: the concrete one-topic scenario run, with a search returning
zero results. -/
theorem scenario_machine_learning_witness :
    (generate_study_plan invoke_ok eval_plan0 "Machine Learning" "Beginner" "Intermediate" 10).1
      = [⟨"Machine Learning", "Beginner", "Intermediate", 10, 4⟩]
    ∧ ["Regression" ++ " " ++ "Machine Learning"]
      = (allTopics plan0.weeks).map (fun t => t.name ++ " " ++ "Machine Learning") :=
  scenario_machine_learning invoke_ok eval_plan0 search_empty plan0
    ["Regression" ++ " " ++ "Machine Learning"]
    ⟨[⟨1, "Intro", ["O1"], [⟨"Regression", 2, "basics", some none⟩], 10⟩]⟩ rfl

/-- C6: two `update_progress` calls with the same plan id and topic leave the
stored `progress.<topic>` value equal to the second call's boolean
(last-write-wins), whenever a document with that id exists. -/
theorem update_progress_last_write_wins (store : List PlanDoc) (p : Nat)
    (t : String) (b₁ b₂ : Bool) (h : ∃ d ∈ store, d._id = p) :
    get_progress_value (update_progress (update_progress store p t b₁) p t b₂) p t
      = some b₂ :=
  get_progress_value_update _ p t b₂ (exists_id_update store p t b₁ h)

/-- C6 witness: a concrete one-document store updated `true` then `false`
reads back `false`. -/
theorem update_progress_last_write_wins_witness :
    get_progress_value
        (update_progress (update_progress [⟨1, [], "ML", 0, []⟩] 1 "Regression" true)
          1 "Regression" false) 1 "Regression" = some false :=
  update_progress_last_write_wins [⟨1, [], "ML", 0, []⟩] 1 "Regression" true false
    (by decide)

/-- C7: `update_progress` changes at most the `progress.<topic>` field of the
document matching the plan id: pointwise along the store (same length, same
order), every document keeps its `_id`, `weeks`, `subject`, `created_at` and
every progress key other than `topic`; a document whose `_id` differs from the
filter is untouched entirely. -/
theorem update_progress_frame (store : List PlanDoc) (p : Nat) (t : String) (b : Bool) :
    List.Forall₂ (fun d d' =>
      (d'._id = d._id ∧ d'.weeks = d.weeks ∧ d'.subject = d.subject ∧
        d'.created_at = d.created_at ∧
        ∀ k, k ≠ t → getKey d'.progress k = getKey d.progress k)
      ∧ (d._id ≠ p → d' = d))
      store (update_progress store p t b) := by
  induction store with
  | nil => simp [update_progress]
  | cons d rest ih =>
    by_cases hd : d._id = p
    · simp only [update_progress, if_pos hd]
      refine List.Forall₂.cons ⟨⟨rfl, rfl, rfl, rfl, ?_⟩, ?_⟩ ?_
      · intro k hk
        exact getKey_setKey_ne d.progress t b k hk
      · intro hne
        exact absurd hd hne
      · refine List.forall₂_same.mpr ?_
        intro x _
        exact ⟨⟨rfl, rfl, rfl, rfl, fun k _ => rfl⟩, fun _ => rfl⟩
    · simp only [update_progress, if_neg hd]
      exact List.Forall₂.cons ⟨⟨rfl, rfl, rfl, rfl, fun k _ => rfl⟩, fun _ => rfl⟩ ih

/-- C7 witness: the frame relation on a concrete one-document store. -/
theorem update_progress_frame_witness :
    List.Forall₂ (fun d d' =>
      (d'._id = d._id ∧ d'.weeks = d.weeks ∧ d'.subject = d.subject ∧
        d'.created_at = d.created_at ∧
        ∀ k, k ≠ "Regression" → getKey d'.progress k = getKey d.progress k)
      ∧ (d._id ≠ 1 → d' = d))
      [⟨1, [], "ML", 0, []⟩]
      (update_progress [⟨1, [], "ML", 0, []⟩] 1 "Regression" true) :=
  update_progress_frame [⟨1, [], "ML", 0, []⟩] 1 "Regression" true

/-- C8: when no stored document has the given plan id, `update_progress` is a
silently accepted no-op — it raises nothing (the model is a total function
into stores, mirroring `update_one`'s matched-count-zero behaviour) and the
store is unchanged. -/
theorem update_progress_missing_id_noop (store : List PlanDoc) (p : Nat)
    (t : String) (b : Bool) (h : ∀ d ∈ store, d._id ≠ p) :
    update_progress store p t b = store := by
  induction store with
  | nil => rfl
  | cons d rest ih =>
    have hd : d._id ≠ p := h d (List.mem_cons_self d rest)
    simp [update_progress, hd, ih (fun d' hd' => h d' (List.mem_cons_of_mem d hd'))]

/-- C8 witness: updating a concrete store under an absent id leaves it
unchanged. -/
theorem update_progress_missing_id_noop_witness :
    update_progress [⟨1, [], "ML", 0, []⟩] 2 "Regression" true
      = [⟨1, [], "ML", 0, []⟩] :=
  update_progress_missing_id_noop [⟨1, [], "ML", 0, []⟩] 2 "Regression" true
    (by decide)

/-- C9, counterexample: a failing generation attempt (the model call raises,
so the error banner is shown) leaves a previously generated plan in the
session — the plan state is NOT returned to absent, contradicting "the
session returns to the NoPlan-equivalent state regardless of what plan state
held before the generation attempt". -/
theorem failed_generation_keeps_old_plan_cex :
    ((generate_button invoke_fail eval_plan0 search_empty []
        ⟨some ⟨7, []⟩, []⟩ "ML" "Beginner" "Intermediate" 10 0 1).errorMsg).isSome = true
    ∧ (generate_button invoke_fail eval_plan0 search_empty []
        ⟨some ⟨7, []⟩, []⟩ "ML" "Beginner" "Intermediate" 10 0 1).session.plan
      = some ⟨7, []⟩
    ∧ ¬ (generate_button invoke_fail eval_plan0 search_empty []
        ⟨some ⟨7, []⟩, []⟩ "ML" "Beginner" "Intermediate" 10 0 1).session.plan
      = none :=
  ⟨rfl, rfl, by decide⟩

/-- C9, amended: on any exception during generation, enrichment or the initial
save, the handler leaves the session exactly as it was (a previously absent
plan stays absent, a previously set plan stays set) and the store unchanged;
the only visible effect is the inline error banner. -/
theorem error_leaves_session_and_store_unchanged
    (invoke : GenInput → Except String String)
    (evalFn : String → Except String StudyPlan)
    (search : String → Except String (List RawVideo))
    (store : List PlanDoc) (session : Session)
    (subject current_level target_level : String) (hours_per_week : Nat)
    (now nextId : Nat)
    (herr : (generate_button invoke evalFn search store session subject
        current_level target_level hours_per_week now nextId).errorMsg.isSome = true) :
    (generate_button invoke evalFn search store session subject current_level
        target_level hours_per_week now nextId).session = session
    ∧ (generate_button invoke evalFn search store session subject current_level
        target_level hours_per_week now nextId).store = store := by
  cases hg : (generate_study_plan invoke evalFn subject current_level target_level
      hours_per_week).2 with
  | error e => simp [generate_button, hg]
  | ok plan =>
    cases he : (enrich_plan search subject plan).2 with
    | error e => simp [generate_button, hg, he]
    | ok enriched => simp [generate_button, hg, he, save_plan] at herr

/-- C9 amended witness: a concrete failing run leaves concrete session and
store untouched. -/
theorem error_leaves_session_and_store_unchanged_witness :
    (generate_button invoke_fail eval_plan0 search_empty [] ⟨none, []⟩
        "ML" "Beginner" "Intermediate" 10 0 1).session = ⟨none, []⟩
    ∧ (generate_button invoke_fail eval_plan0 search_empty [] ⟨none, []⟩
        "ML" "Beginner" "Intermediate" 10 0 1).store = [] :=
  error_leaves_session_and_store_unchanged invoke_fail eval_plan0 search_empty
    [] ⟨none, []⟩ "ML" "Beginner" "Intermediate" 10 0 1 rfl

/-- C10: after a Generate-button run that succeeds (no error banner), every
topic of every week of the plan placed in the session carries a `"video"` key
— the enrichment loop assigned it unconditionally (holding either a video
record or Python `None`), so the rendering's `topic.get('video')` never meets
a topic the loop skipped. -/
theorem enrichment_assigns_video_key (invoke : GenInput → Except String String)
    (evalFn : String → Except String StudyPlan)
    (search : String → Except String (List RawVideo))
    (store : List PlanDoc) (session : Session)
    (subject current_level target_level : String) (hours_per_week : Nat)
    (now nextId : Nat) (sp : SessionPlan)
    (hok : (generate_button invoke evalFn search store session subject
        current_level target_level hours_per_week now nextId).errorMsg = none)
    (hplan : (generate_button invoke evalFn search store session subject
        current_level target_level hours_per_week now nextId).session.plan = some sp) :
    ∀ w ∈ sp.weeks, ∀ tp ∈ w.topics, tp.video.isSome = true := by
  cases hg : (generate_study_plan invoke evalFn subject current_level target_level
      hours_per_week).2 with
  | error e => simp [generate_button, hg] at hok
  | ok plan =>
    cases he : (enrich_plan search subject plan).2 with
    | error e => simp [generate_button, hg, he] at hok
    | ok enriched =>
      have he' := he
      simp only [enrich_plan] at he'
      split at he'
      · simp at he'
      · rename_i qs1 ws hw
        simp only [Except.ok.injEq] at he'
        subst he'
        have hsess : (generate_button invoke evalFn search store session subject
            current_level target_level hours_per_week now nextId).session.plan
              = some ⟨nextId, (StudyPlan.mk ws).weeks⟩ := by
          simp [generate_button, hg, he, save_plan]
        rw [hplan] at hsess
        have hsp : sp = ⟨nextId, (StudyPlan.mk ws).weeks⟩ := Option.some.inj hsess
        subst hsp
        intro w hwk tp htp
        exact enrichWeeks_ok_video search subject plan.weeks qs1 ws hw w hwk tp htp

/-- C10 witness: the concrete successful run; the one enriched topic carries
its `"video"` key (holding Python `None`, since the search found nothing). -/
theorem enrichment_assigns_video_key_witness :
    (Topic.mk "Regression" 2 "basics" (some none)).video.isSome = true :=
  enrichment_assigns_video_key invoke_ok eval_plan0 search_empty [] ⟨none, []⟩
    "ML" "Beginner" "Intermediate" 10 0 1
    ⟨1, [⟨1, "Intro", ["O1"], [⟨"Regression", 2, "basics", some none⟩], 10⟩]⟩
    rfl rfl
    ⟨1, "Intro", ["O1"], [⟨"Regression", 2, "basics", some none⟩], 10⟩ (by decide)
    ⟨"Regression", 2, "basics", some none⟩ (by decide)
